import Mathlib

/-!
Verification development for the simulink-binder repository.

The repository contains two variants of a procedural macro that parses a
Simulink-generated C header and emits a Rust wrapper:

* Mode A (`binder/src/lib.rs`): lenient parser with an optional array size
  in the field regex, an owned-state wrapper and zero-initializing
  `Default` impls.
* Mode B (`src/lib.rs`): strict parser (mandatory array size, `unwrap` on
  the regex captures), enum-tagged indexed views over process-wide native
  storage, and an `Iterator`-based stepping protocol.

The definitions below are a shallow embedding of the parsing and
generation logic of those two files.  Header lines are modelled as
`List Char`; the regex character classes `\w` and `\d` are modelled over
their ASCII fragments (Simulink headers are ASCII).  Rust panics are
modelled as `Except.error` carrying the (fixed) panic message; Rust
`usize` is modelled as `Nat` with an explicit `< 2 ^ 64` bound where the
source performs a fallible `str::parse::<usize>`.
-/

namespace SimulinkBinder

/-- ASCII fragment of the regex character class `\w`: letters, digits and
the underscore. -/
def isWordChar (c : Char) : Bool := c.isAlphanum || c == '_'

/-- Substring test: `containsSub needle hay` embeds Rust
`hay.contains(needle)` for string slices. -/
def containsSub (needle : List Char) : List Char → Bool
  | [] => needle.isEmpty
  | c :: t => needle.isPrefixOf (c :: t) || containsSub needle t

/-- Attempt to match the Mode A regex `_T (?P<name>\w+)(?:\[(?P<size>\d+)\])?`
anchored at the head of the character list (`binder/src/lib.rs:76`).  The
`\w+` and `\d+` groups take maximal runs; since `[` is not a word
character and `]` is not a digit, backtracking into the runs can never
produce a match, so the maximal-run reading is exact for this pattern.
Returns the captured `name` and, when the optional bracket group matched,
the captured digit text. -/
def matchAtA : List Char → Option (List Char × Option (List Char))
  | '_' :: 'T' :: ' ' :: rest =>
    let name := rest.takeWhile isWordChar
    let rest2 := rest.dropWhile isWordChar
    if name.isEmpty then none
    else
      match rest2 with
      | '[' :: r3 =>
        let ds := r3.takeWhile Char.isDigit
        let r4 := r3.dropWhile Char.isDigit
        match r4 with
        | ']' :: _ => if ds.isEmpty then some (name, none) else some (name, some ds)
        | _ => some (name, none)
      | _ => some (name, none)
  | _ => none

/-- Leftmost search with the Mode A regex: `Regex::captures` returns the
captures of the leftmost successful match position. -/
def findA : List Char → Option (List Char × Option (List Char))
  | [] => none
  | c :: cs =>
    match matchAtA (c :: cs) with
    | some r => some r
    | none => findA cs

/-- Attempt to match the Mode B regex `_T (?P<name>\w+)\[(?P<size>\d+)\]`
anchored at the head of the character list (`src/lib.rs:57`).  The bracket
group is mandatory here. -/
def matchAtB : List Char → Option (List Char × List Char)
  | '_' :: 'T' :: ' ' :: rest =>
    let name := rest.takeWhile isWordChar
    let rest2 := rest.dropWhile isWordChar
    if name.isEmpty then none
    else
      match rest2 with
      | '[' :: r3 =>
        let ds := r3.takeWhile Char.isDigit
        let r4 := r3.dropWhile Char.isDigit
        match r4 with
        | ']' :: _ => if ds.isEmpty then none else some (name, ds)
        | _ => none
      | _ => none
  | _ => none

/-- Leftmost search with the Mode B regex. -/
def findB : List Char → Option (List Char × List Char)
  | [] => none
  | c :: cs =>
    match matchAtB (c :: cs) with
    | some r => some r
    | none => findB cs

/-- Numeric value of a run of ASCII digit characters. -/
def digitsToNat (s : List Char) : Nat :=
  s.foldl (fun a c => 10 * a + (c.toNat - 48)) 0

/-- Embeds `str::parse::<usize>().ok()` on the strings this program feeds
it (regex `\d+` captures, hence non-empty all-digit strings; the general
Rust parser also accepts a leading `+`, which can never occur here).
Parsing succeeds exactly when the value fits in a 64-bit `usize`. -/
def parseUsizeOk (s : List Char) : Option Nat :=
  if s.isEmpty then none
  else if s.all Char.isDigit then
    if digitsToNat s < 2 ^ 64 then some (digitsToNat s) else none
  else none

/-- Mode A field record, embedding `struct IO` of `binder/src/lib.rs`:
a name and an optional array size (`None` means scalar). -/
structure IOField where
  name : List Char
  size : Option Nat
deriving Repr, DecidableEq

/-- Embeds `IO::new` of `binder/src/lib.rs:40`: the size text, when
present, is parsed with `parse().ok()`, so an unparsable (out-of-range)
size silently becomes `None`. -/
def IOField.newA (name : List Char) (size : Option (List Char)) : IOField :=
  ⟨name, size.bind parseUsizeOk⟩

/-- Mode B field record, embedding `struct IO` of `src/lib.rs`: the size
is mandatory (`size: usize`); the `ident` field duplicates `name` and is
not modelled separately. -/
structure IOFieldB where
  name : List Char
  size : Nat
deriving Repr, DecidableEq

/-- Embeds `IO::new` of `src/lib.rs:39`: `size.parse().unwrap()` panics
when the digits do not fit in `usize`; `none` models that panic. -/
def IOFieldB.newB (name : List Char) (size : List Char) : Option IOFieldB :=
  (parseUsizeOk size).map (fun n => ⟨name, n⟩)

/-- Composite per-line extraction for Mode A: the field produced by a line
when the regex matches it, `none` when the line does not match. -/
def fieldOfA (l : List Char) : Option IOField :=
  (findA l).map (fun p => IOField.newA p.1 p.2)

/-- Composite per-line extraction for Mode B: regex match followed by the
fallible size parse. -/
def fieldOfB (l : List Char) : Option IOFieldB :=
  (findB l).bind (fun p => IOFieldB.newB p.1 p.2)

/-- The struct-opening keyword sequence checked by both parsers
(`line.starts_with("typedef struct")`). -/
def typedefStruct : List Char := "typedef struct".toList

/-- Panic message of `Option::unwrap` on `None` (the backticks of the
actual message are immaterial and omitted): this is what
`re.captures(&line).unwrap()` raises in `src/lib.rs:66` on a line that
does not match the strict regex. -/
def unwrapPanicMsg : List Char :=
  "called Option::unwrap() on a None value".toList

/-- Panic message raised by `size.parse().unwrap()` in `src/lib.rs:43`
when the captured size does not fit in `usize`. -/
def parseIntPanicMsg : List Char :=
  "called Result::unwrap() on an Err value: ParseIntError".toList

/-- Mode A struct-body sub-scan (`binder/src/lib.rs:80`–`91`): consume
lines until one contains the tag `io`; a line matching the regex pushes
one field, a non-matching line is silently skipped.  Returns the fields
in source order together with the lines remaining after the terminator. -/
def subScanA (io : List Char) : List (List Char) → List IOField × List (List Char)
  | [] => ([], [])
  | l :: rest =>
    if containsSub io l then ([], rest)
    else
      match findA l with
      | some p => ((IOField.newA p.1 p.2) :: (subScanA io rest).1, (subScanA io rest).2)
      | none => subScanA io rest

/-- Mode A `parse_io` (`binder/src/lib.rs:75`–`96`): the next line must
start with `typedef struct`, otherwise the (already consumed) line is
dropped and `None` is returned. -/
def parseIOA (io : List Char) : List (List Char) → Option (List IOField) × List (List Char)
  | [] => (none, [])
  | l :: rest =>
    if typedefStruct.isPrefixOf l then
      (some (subScanA io rest).1, (subScanA io rest).2)
    else (none, rest)

/-- Mode B struct-body sub-scan (`src/lib.rs:61`–`75`): as Mode A but a
line that fails the regex panics via `unwrap`, and a size overflow panics
inside `IO::new`; `Except.error` carries the panic message. -/
def subScanB (io : List Char) :
    List (List Char) → Except (List Char) (List IOFieldB × List (List Char))
  | [] => .ok ([], [])
  | l :: rest =>
    if containsSub io l then .ok ([], rest)
    else
      match findB l with
      | some p =>
        match IOFieldB.newB p.1 p.2 with
        | some f => (subScanB io rest).map (fun r => (f :: r.1, r.2))
        | none => .error parseIntPanicMsg
      | none => .error unwrapPanicMsg

/-- Mode B `parse_io` (`src/lib.rs:56`–`80`). -/
def parseIOB (io : List Char) :
    List (List Char) → Except (List Char) (Option (List IOFieldB) × List (List Char))
  | [] => .ok (none, [])
  | l :: rest =>
    if typedefStruct.isPrefixOf l then
      (subScanB io rest).map (fun r => (some r.1, r.2))
    else .ok (none, rest)

/-- One driver-loop section step of Mode A (`binder/src/lib.rs:157`–`173`):
on a line containing the section marker, run `parse_io` on the following
lines; a `Some` result replaces the current field list, a `None` result
leaves it unchanged, and in both cases the loop continues on the lines
`parse_io` did not consume. -/
def sectionA (marker tag l : List Char)
    (st : List (List Char) × List IOField) : List (List Char) × List IOField :=
  if containsSub marker l then
    match parseIOA tag st.1 with
    | (some fs, r) => (r, fs)
    | (none, r) => (r, st.2)
  else st

/-- One driver-loop section step of Mode B (`src/lib.rs:99`–`110`): as
Mode A but a `Some` result is appended to the current field list, and a
panic inside `parse_io` propagates. -/
def sectionB (marker tag l : List Char)
    (st : List (List Char) × List IOFieldB) :
    Except (List Char) (List (List Char) × List IOFieldB) :=
  if containsSub marker l then
    (parseIOB tag st.1).map (fun r =>
      match r with
      | (some fs, rem) => (rem, st.2 ++ fs)
      | (none, rem) => (rem, st.2))
  else .ok st

/-- Section terminator tags (`ExtU`, `ExtY`, `DW`) and marker phrases. -/
def tagU : List Char := "ExtU".toList

def tagY : List Char := "ExtY".toList

def tagS : List Char := "DW".toList

def markerU : List Char := "External inputs".toList

def markerY : List Char := "External outputs".toList

def markerS : List Char := "Block states".toList

/-- Value of one field of a generated record: a scalar `f64` or a
fixed-length `f64` array. -/
inductive FVal where
  | scalar (x : Float)
  | arr (xs : List Float)

/-- Semantic content of `List::quote` (`binder/src/lib.rs:54`–`71`)
combined with the generated `Default` impls (`binder/src/lib.rs:194`–`208`):
for each parsed field, in order, the initializer sets the field named
`name` to `[0f64; size]` when a size is present and to `0f64` otherwise.
The token-stream fold of the source appends one such binding per field in
order, which is exactly a `map`. -/
def quoteDefault (fs : List IOField) : List (List Char × FVal) :=
  fs.map (fun f =>
    (f.name,
      match f.size with
      | some n => FVal.arr (List.replicate n 0.0)
      | none => FVal.scalar 0.0))

/-- The zero value of the declared shape: scalars are `0.0`, arrays are
all-zero of exactly the declared length. -/
def zeroOfSize : Option Nat → FVal → Prop
  | some n, .arr xs => xs.length = n ∧ ∀ y ∈ xs, y = 0.0
  | none, .scalar x => x = 0.0
  | _, _ => False

/-- Embeds `IO::variant` of `src/lib.rs:47`: `name.replace("_", "")`. -/
def sanitizeVariant (name : List Char) : List Char :=
  name.filter (fun c => c ≠ '_')

/-- Embeds `IO::var` of `src/lib.rs:51`: `name.to_lowercase()` (ASCII
fragment, the only characters the regex can capture). -/
def sanitizeVar (name : List Char) : List Char :=
  name.map Char.toLower

/-- The list of enum-variant identifiers the Mode B generator emits, one
per field in order (`src/lib.rs:113`): no collision check of any kind is
performed. -/
def genVariants (fs : List IOFieldB) : List (List Char) :=
  fs.map (fun f => sanitizeVariant f.name)

/-- One Mode B enum variant of the generated inputs enum `U`: the variant
carries (a mutable reference to) one fixed-length `f64` array
(`src/lib.rs:152`–`154`). -/
structure UView where
  vname : List Char
  data : List Float

/-- Embeds `Index<usize> for U` (`src/lib.rs:155`–`162`): the generated
match arm dereferences the carried array at the index, so the access
panics exactly when the index is out of bounds; `none` models the panic. -/
def UView.index (u : UView) (i : Nat) : Option Float := u.data[i]?

/-- Embeds `IndexMut<usize> for U` (`src/lib.rs:163`–`169`): a successful
access yields the element location; writing `x` through it is modelled by
`List.set`.  Out of bounds panics (`none`). -/
def UView.indexMut (u : UView) (i : Nat) (x : Float) : Option UView :=
  if i < u.data.length then some ⟨u.vname, u.data.set i x⟩ else none

/-- One Mode B enum variant of the generated outputs enum `Y`
(`src/lib.rs:172`–`174`). -/
structure YView where
  vname : List Char
  data : List Float

/-- Embeds `Index<usize> for Y` (`src/lib.rs:175`–`182`). -/
def YView.index (y : YView) (i : Nat) : Option Float := y.data[i]?

/-- Observable trace of the native layer for the Mode B stepping
protocol: the number of calls made to the extern `<model>_step` routine,
which is all `__step__` (`src/lib.rs:216`–`220`) does. -/
structure NativeTrace where
  stepCalls : Nat
deriving Repr, DecidableEq

/-- Embeds `Simulink::__step__` for the generated controller: one call to
the native step routine. -/
def stepOnce (t : NativeTrace) : NativeTrace := ⟨t.stepCalls + 1⟩

/-- Embeds `Iterator::next` for `Controller` (`src/lib.rs:233`–`246`,
both impls are identical): call `__step__` once, then yield `Some(())`. -/
def ctrlNext (t : NativeTrace) : NativeTrace × Option Unit :=
  (stepOnce t, some ())

/-- The native trace after `k` advances of the iteration protocol. -/
def ctrlIter : Nat → NativeTrace → NativeTrace
  | 0, t => t
  | k + 1, t => ctrlIter k (ctrlNext t).1

/-! ## Helper lemmas -/

theorem length_filterMap_of_isSome {α β : Type} (f : α → Option β) :
    ∀ l : List α, (∀ a ∈ l, (f a).isSome) → (l.filterMap f).length = l.length := by
  intro l
  induction l with
  | nil => intro _; rfl
  | cons a t ih =>
    intro h
    obtain ⟨b, hb⟩ := Option.isSome_iff_exists.mp (h a (by simp))
    simp [List.filterMap_cons, hb, ih (fun x hx => h x (by simp [hx]))]

/-- Structure of the Mode A sub-scan on a struct body none of whose lines
contains the terminator tag: the fields are exactly the per-line
extractions, in source order, and scanning resumes after the tag line. -/
theorem subScanA_body (io tag : List Char) (rest : List (List Char))
    (htag : containsSub io tag = true) :
    ∀ body : List (List Char), (∀ l ∈ body, containsSub io l = false) →
      subScanA io (body ++ tag :: rest) = (body.filterMap fieldOfA, rest) := by
  intro body
  induction body with
  | nil => intro _; simp [subScanA, htag]
  | cons l t ih =>
    intro h
    have hl := h l (by simp)
    have iht := ih (fun x hx => h x (by simp [hx]))
    cases hfa : findA l with
    | none => simp [subScanA, hl, hfa, iht, List.filterMap_cons, fieldOfA]
    | some p => simp [subScanA, hl, hfa, iht, List.filterMap_cons, fieldOfA]

/-- Structure of the Mode B sub-scan when every body line matches the
strict regex and its size parses. -/
theorem subScanB_body (io tag : List Char) (rest : List (List Char))
    (htag : containsSub io tag = true) :
    ∀ body : List (List Char),
      (∀ l ∈ body, containsSub io l = false ∧ (fieldOfB l).isSome) →
      subScanB io (body ++ tag :: rest) = .ok (body.filterMap fieldOfB, rest) := by
  intro body
  induction body with
  | nil => intro _; simp [subScanB, htag]
  | cons l t ih =>
    intro h
    obtain ⟨hl, hs⟩ := h l (by simp)
    obtain ⟨f, hf⟩ := Option.isSome_iff_exists.mp hs
    have hf' := hf
    simp only [fieldOfB] at hf'
    obtain ⟨p, hp, hnew⟩ := Option.bind_eq_some.mp hf'
    have iht := ih (fun x hx => h x (by simp [hx]))
    simp [subScanB, hl, hp, hnew, iht, List.filterMap_cons, hf, Except.map]

/-! ## Claim theorems -/

/-- C1 counterexample: a section whose struct body is the single
well-formed scalar field line `real_T torque;` (well-formed under the
spec's optional-bracket pattern, as the Mode A result shows: exactly one
entry).  Contrary to the claim, the Mode B parser produces no FieldList
at all for this section — it panics on the scalar line — so "the parser
produces a FieldList with exactly N entries" fails for the cited
`src/src/lib.rs` parser at N = 1. -/
theorem parse_roundtrip_counterexample :
    parseIOA tagY ["typedef struct x".toList, "real_T torque;".toList,
        "ExtY_demo_T;".toList] = (some [⟨"torque".toList, none⟩], []) ∧
    parseIOB tagY ["typedef struct x".toList, "real_T torque;".toList,
        "ExtY_demo_T;".toList] = .error unwrapPanicMsg :=
  ⟨by decide, rfl⟩

/-- C1 amended: for a struct body of lines well-formed under the Mode A
(optional-bracket) pattern, none containing the terminator tag, the
Mode A parser produces a field list with exactly one entry per line, in
source order (the order-preserving `filterMap` of the per-line
extraction); the Mode B parser produces the same count and order when,
additionally, every line matches its mandatory-bracket pattern with an
in-range size (otherwise it fails fatally, see the counterexample). -/
theorem parse_roundtrip_amended (io tds tag : List Char) (body rest : List (List Char))
    (htds : typedefStruct.isPrefixOf tds = true)
    (htag : containsSub io tag = true)
    (hbody : ∀ l ∈ body, containsSub io l = false ∧ (fieldOfA l).isSome) :
    parseIOA io (tds :: (body ++ tag :: rest)) = (some (body.filterMap fieldOfA), rest) ∧
    (body.filterMap fieldOfA).length = body.length ∧
    ((∀ l ∈ body, (fieldOfB l).isSome) →
      parseIOB io (tds :: (body ++ tag :: rest)) =
        .ok (some (body.filterMap fieldOfB), rest) ∧
      (body.filterMap fieldOfB).length = body.length) := by
  have hA := subScanA_body io tag rest htag body (fun l hl => (hbody l hl).1)
  refine ⟨?_, ?_, ?_⟩
  · simp [parseIOA, htds, hA]
  · exact length_filterMap_of_isSome _ body (fun l hl => (hbody l hl).2)
  · intro hwfB
    have hB := subScanB_body io tag rest htag body
      (fun l hl => ⟨(hbody l hl).1, hwfB l hl⟩)
    constructor
    · simp [parseIOB, htds, hB, Except.map]
    · exact length_filterMap_of_isSome _ body hwfB

theorem parse_roundtrip_amended_witness :
    parseIOA tagU ("typedef struct x".toList ::
        (["  real_T position[3];".toList, "real_T torque;".toList] ++
          "ExtU_demo_T;".toList :: ["trailing".toList])) =
      (some [⟨"position".toList, some 3⟩, ⟨"torque".toList, none⟩],
        ["trailing".toList]) ∧
    (List.filterMap fieldOfA
      ["  real_T position[3];".toList, "real_T torque;".toList]).length = 2 ∧
    parseIOB tagU ("typedef struct x".toList ::
        (["  real_T gain[2];".toList] ++
          "ExtU_demo_T;".toList :: ["trailing".toList])) =
      .ok (some [⟨"gain".toList, 2⟩], ["trailing".toList]) := by
  have h := parse_roundtrip_amended tagU "typedef struct x".toList "ExtU_demo_T;".toList
    ["  real_T position[3];".toList, "real_T torque;".toList] ["trailing".toList]
    (by decide) (by decide) (by decide)
  have h2 := parse_roundtrip_amended tagU "typedef struct x".toList "ExtU_demo_T;".toList
    ["  real_T gain[2];".toList] ["trailing".toList]
    (by decide) (by decide) (by decide)
  have eB : List.filterMap fieldOfB ["  real_T gain[2];".toList] =
      [⟨"gain".toList, 2⟩] := by decide
  exact ⟨by rw [h.1]; decide, by rw [h.2.1]; rfl,
    by rw [(h2.2.2 (by decide)).1, eB]⟩

/-- C4: when the line after a section marker does not begin with
`typedef struct`, both `parse_io` variants return `None` after consuming
that line — no field list, no panic — and the driver's section step
leaves the current field list unchanged (hence empty when it was empty)
while the scan continues with the remaining lines. -/
theorem absent_struct_line_skips_section
    (marker io l bad : List Char) (rest : List (List Char))
    (u : List IOField) (uB : List IOFieldB)
    (hm : containsSub marker l = true)
    (hbad : typedefStruct.isPrefixOf bad = false) :
    parseIOA io (bad :: rest) = (none, rest) ∧
    parseIOB io (bad :: rest) = .ok (none, rest) ∧
    sectionA marker io l (bad :: rest, u) = (rest, u) ∧
    sectionB marker io l (bad :: rest, uB) = .ok (rest, uB) := by
  refine ⟨?_, ?_, ?_, ?_⟩
  · simp [parseIOA, hbad]
  · simp [parseIOB, hbad]
  · simp [sectionA, hm, parseIOA, hbad]
  · simp [sectionB, hm, parseIOB, hbad, Except.map]

theorem absent_struct_line_skips_section_witness :
    parseIOA tagS ["  typedef struct (indented)".toList, "next".toList] =
      (none, ["next".toList]) ∧
    parseIOB tagS ["  typedef struct (indented)".toList, "next".toList] =
      .ok (none, ["next".toList]) ∧
    sectionA markerS tagS "(* Block states (default storage) *)".toList
      (["  typedef struct (indented)".toList, "next".toList], []) = (["next".toList], []) ∧
    sectionB markerS tagS "(* Block states (default storage) *)".toList
      (["  typedef struct (indented)".toList, "next".toList], []) =
      .ok (["next".toList], []) :=
  absent_struct_line_skips_section markerS tagS
    "(* Block states (default storage) *)".toList
    "  typedef struct (indented)".toList ["next".toList] [] []
    (by decide) (by decide)

/-- C9: in both parsers the sub-scan of a struct body stops at the first
line containing the section tag anywhere in the line, even when that line
is itself a well-formed field declaration; the line contributes no field,
and all remaining lines are handed back unscanned. -/
theorem tag_line_terminates_subscan (io l : List Char) (rest : List (List Char))
    (hc : containsSub io l = true)
    (hwfA : (fieldOfA l).isSome) (hwfB : (fieldOfB l).isSome) :
    subScanA io (l :: rest) = ([], rest) ∧ subScanB io (l :: rest) = .ok ([], rest) := by
  constructor
  · simp [subScanA, hc]
  · simp [subScanB, hc]

theorem tag_line_terminates_subscan_witness :
    subScanA tagS ["  real_T myDWork[4];".toList, "  real_T other[2];".toList] =
      ([], ["  real_T other[2];".toList]) ∧
    subScanB tagS ["  real_T myDWork[4];".toList, "  real_T other[2];".toList] =
      .ok ([], ["  real_T other[2];".toList]) :=
  tag_line_terminates_subscan tagS "  real_T myDWork[4];".toList
    ["  real_T other[2];".toList] (by decide) (by decide) (by decide)

/-- C10: in the Mode A parser, a field whose bracketed size text is a
digit string whose value does not fit in a 64-bit `usize` is still
accepted, but its size is silently recorded as `None` (scalar), because
`IO::new` discards the `parse` failure with `.ok()`. -/
theorem oversized_size_scalar (name s : List Char)
    (h1 : s.isEmpty = false) (h2 : s.all Char.isDigit = true)
    (h3 : 2 ^ 64 ≤ digitsToNat s) :
    IOField.newA name (some s) = ⟨name, none⟩ := by
  have h4 : ¬ digitsToNat s < 2 ^ 64 := Nat.not_lt.mpr h3
  simp [IOField.newA, parseUsizeOk, h1, h2, h4]
  intro _ _
  exact h3

theorem oversized_size_scalar_witness :
    IOField.newA "big".toList (some "18446744073709551616".toList) =
      ⟨"big".toList, none⟩ :=
  oversized_size_scalar "big".toList "18446744073709551616".toList
    (by decide) (by decide) (by decide)

/-- C2: every entry of the Mode A default initializer corresponds to a
parsed field of the same name and is entirely zero in the declared shape:
scalar fields are initialized to `0.0`, array fields to an all-zero array
of exactly the declared length. -/
theorem mode_a_default_all_zero (fs : List IOField) (p : List Char × FVal)
    (hp : p ∈ quoteDefault fs) :
    ∃ f, f ∈ fs ∧ p.1 = f.name ∧ zeroOfSize f.size p.2 := by
  simp only [quoteDefault, List.mem_map] at hp
  obtain ⟨f, hf, hpe⟩ := hp
  refine ⟨f, hf, ?_, ?_⟩
  · rw [← hpe]
  · rw [← hpe]
    cases h : f.size with
    | none => simp [h, zeroOfSize]
    | some n => simp [h, zeroOfSize]

theorem mode_a_default_all_zero_witness :
    ∃ f, f ∈ [(⟨"torque".toList, none⟩ : IOField)] ∧
      ("torque".toList, FVal.scalar 0.0).1 = f.name ∧
      zeroOfSize f.size ("torque".toList, FVal.scalar 0.0).2 :=
  mode_a_default_all_zero [⟨"torque".toList, none⟩]
    ("torque".toList, FVal.scalar 0.0) (by simp [quoteDefault])

/-- C3 counterexample: the strict Mode B regex has a mandatory bracket
group, so contrary to the claim the scalar line `real_T torque;` does not
match it and yields no Field there; the strict sub-scan panics on that
line instead of producing `{name: torque, size: None}`. -/
theorem field_pattern_counterexample :
    findB "real_T torque;".toList = none ∧
    subScanB tagY ["real_T torque;".toList, "ExtY_demo_T;".toList] =
      .error unwrapPanicMsg :=
  ⟨by decide, rfl⟩

/-- C3 amended: in the Mode A parser the bracketed integer is optional: a
line the regex matches yields exactly one Field built by `IO::new` from
the captured identifier and optional size text (size `None` when the
bracket is absent, and `Some` of the value only when it also fits in
`usize`); the scalar line `real_T torque;` yields name `torque` with size
`None`.  In the Mode B parser the bracket is mandatory and a scalar line
does not match at all. -/
theorem field_pattern_amended (io l n : List Char) (s : Option (List Char))
    (rest : List (List Char))
    (h1 : containsSub io l = false) (h2 : findA l = some (n, s)) :
    subScanA io (l :: rest) =
      (IOField.newA n s :: (subScanA io rest).1, (subScanA io rest).2) ∧
    IOField.newA n none = ⟨n, none⟩ ∧
    findA "real_T torque;".toList = some ("torque".toList, none) ∧
    findB "real_T torque;".toList = none := by
  refine ⟨?_, rfl, by decide, by decide⟩
  simp [subScanA, h1, h2]

theorem field_pattern_amended_witness :
    subScanA tagY ["real_T torque;".toList] =
      (IOField.newA "torque".toList none :: (subScanA tagY []).1,
        (subScanA tagY []).2) ∧
    IOField.newA "torque".toList none = ⟨"torque".toList, none⟩ ∧
    findA "real_T torque;".toList = some ("torque".toList, none) ∧
    findB "real_T torque;".toList = none :=
  field_pattern_amended tagY "real_T torque;".toList "torque".toList none []
    (by decide) (by decide)

/-- C5 counterexample: on a struct-body line matching neither regex, the
strict parser does fail fatally, but the panic is the generic
`Option::unwrap` message — a constant that does not report (or even
contain) the offending line, contrary to the claim. -/
theorem strict_mismatch_counterexample :
    subScanB tagY ["foo;".toList, "ExtY_demo_T;".toList] = .error unwrapPanicMsg ∧
    containsSub "foo;".toList unwrapPanicMsg = false :=
  ⟨rfl, by decide⟩

/-- C5 amended: a struct-body line not matching the field pattern is
silently skipped by the lenient Mode A sub-scan, while the strict Mode B
sub-scan fails fatally — with the fixed generic unwrap panic message,
which carries no information about the offending line. -/
theorem mismatch_handling_amended (io l : List Char) (rest : List (List Char))
    (hc : containsSub io l = false) (hA : findA l = none) (hB : findB l = none) :
    subScanA io (l :: rest) = subScanA io rest ∧
    subScanB io (l :: rest) = .error unwrapPanicMsg := by
  constructor
  · simp [subScanA, hc, hA]
  · simp [subScanB, hc, hB]

theorem mismatch_handling_amended_witness :
    subScanA tagY ["foo;".toList, "ExtY_demo_T;".toList] =
      subScanA tagY ["ExtY_demo_T;".toList] ∧
    subScanB tagY ["foo;".toList, "ExtY_demo_T;".toList] = .error unwrapPanicMsg :=
  mismatch_handling_amended tagY "foo;".toList ["ExtY_demo_T;".toList]
    (by decide) (by decide) (by decide)

/-- C6: for a Mode B enum view whose carried array has the declared
length `n`, indexing (and, for inputs, mutating) at any index below `n`
succeeds and accesses exactly the corresponding element, while indexing
at any index at or above `n` is the modelled fatal out-of-range panic. -/
theorem enum_index_bounds (u : UView) (n i : Nat) (x : Float)
    (h : u.data.length = n) :
    ((hi : i < n) →
      UView.index u i = some (u.data.get ⟨i, by omega⟩) ∧
      UView.indexMut u i x = some ⟨u.vname, u.data.set i x⟩ ∧
      YView.index ⟨u.vname, u.data⟩ i = some (u.data.get ⟨i, by omega⟩)) ∧
    (n ≤ i →
      UView.index u i = none ∧
      UView.indexMut u i x = none ∧
      YView.index ⟨u.vname, u.data⟩ i = none) := by
  constructor
  · intro hi
    have hlt : i < u.data.length := by omega
    refine ⟨?_, ?_, ?_⟩
    · simp [UView.index, List.getElem?_eq_getElem hlt, List.get_eq_getElem]
    · simp [UView.indexMut, hlt]
    · simp [YView.index, List.getElem?_eq_getElem hlt, List.get_eq_getElem]
  · intro hge
    have hge' : u.data.length ≤ i := by omega
    refine ⟨?_, ?_, ?_⟩
    · simp [UView.index, List.getElem?_eq_none hge']
    · simp [UView.indexMut, Nat.not_lt.mpr hge']
    · simp [YView.index, List.getElem?_eq_none hge']

theorem enum_index_bounds_witness :
    UView.index ⟨"a".toList, [0.5, 1.5]⟩ 1 = some 1.5 ∧
    UView.index ⟨"a".toList, [0.5, 1.5]⟩ 2 = none := by
  have h1 := enum_index_bounds ⟨"a".toList, [0.5, 1.5]⟩ 2 1 0.0 rfl
  have h2 := enum_index_bounds ⟨"a".toList, [0.5, 1.5]⟩ 2 2 0.0 rfl
  exact ⟨(h1.1 (by omega)).1, (h2.2 (by omega)).1⟩

/-- C7 counterexample: the two input fields `a_b` and `ab` sanitize to
the same variant identifier; contrary to the claim, generation does not
fail — it silently emits two identically-named variant declarations. -/
theorem sanitize_collision_counterexample :
    genVariants [⟨"a_b".toList, 1⟩, ⟨"ab".toList, 1⟩] =
      ["ab".toList, "ab".toList] ∧
    ¬ (genVariants [⟨"a_b".toList, 1⟩, ⟨"ab".toList, 1⟩]).Nodup :=
  ⟨by decide, by decide⟩

/-- C7 amended: the generator performs no sanitization-collision check:
whenever two distinct parsed fields have names that sanitize to the same
variant identifier, the emitted variant list contains duplicate
identically-named declarations (it is not duplicate-free), and no fatal
error naming the colliding fields is ever raised — the failure only
surfaces when the emitted code is compiled. -/
theorem sanitize_collision_amended (fs : List IOFieldB) (f g : IOFieldB)
    (hf : f ∈ fs) (hg : g ∈ fs) (hne : f ≠ g)
    (hcol : sanitizeVariant f.name = sanitizeVariant g.name) :
    ¬ (genVariants fs).Nodup := by
  intro hnd
  simp only [genVariants] at hnd
  exact hne (List.inj_on_of_nodup_map hnd hf hg hcol)

theorem sanitize_collision_amended_witness :
    ¬ (genVariants [⟨"a_b".toList, 1⟩, ⟨"ab".toList, 1⟩]).Nodup :=
  sanitize_collision_amended [⟨"a_b".toList, 1⟩, ⟨"ab".toList, 1⟩]
    ⟨"a_b".toList, 1⟩ ⟨"ab".toList, 1⟩
    (by decide) (by decide) (by decide) (by decide)

/-- C8: every advance of the Mode B iteration protocol yields `Some(())`
and invokes the native step routine exactly once: after any number `k` of
prior advances the trace shows exactly `k` native step calls, and the
next advance still yields `Some(())` while adding exactly one call. -/
theorem controller_iter_infinite_step (k : Nat) (t : NativeTrace) :
    (ctrlNext (ctrlIter k t)).2 = some () ∧
    (ctrlIter k t).stepCalls = t.stepCalls + k ∧
    (ctrlNext (ctrlIter k t)).1.stepCalls = t.stepCalls + k + 1 := by
  have hcount : ∀ m (s : NativeTrace), (ctrlIter m s).stepCalls = s.stepCalls + m := by
    intro m
    induction m with
    | zero => intro s; rfl
    | succ p ih =>
      intro s
      show (ctrlIter p (ctrlNext s).1).stepCalls = s.stepCalls + (p + 1)
      rw [ih]
      show s.stepCalls + 1 + p = s.stepCalls + (p + 1)
      omega
  refine ⟨rfl, hcount k t, ?_⟩
  show (ctrlIter k t).stepCalls + 1 = t.stepCalls + k + 1
  rw [hcount k t]

end SimulinkBinder
